import Mathlib

set_option maxHeartbeats 1000000
set_option maxRecDepth 4000

/-!
Shallow embedding of the RTTI metadata-emission transformer.

The embedding translates the transformer source (the visitor, the type
reference serializer `serializeTypeRef`, the import map handling
`assureTypeAvailable` / `generateImports`, the metadata extractors, and the
flag encoder from `flags.ts`) into executable Lean definitions.  Host
compiler values (syntax nodes, modifier lists, checked types, compiler
options) are modelled as plain inductive data; the per-module mutable
map of imports is threaded explicitly; thrown exceptions become `Except`
errors.
-/

/-- Single-character metadata flag codes.  The characters themselves are
documented in the transformer header comment (`$` public, `@` protected,
`#` private, `R` readonly, `A` abstract, `P` property, `C` class, `M`
method); the constants live in a `common/flags` module that is not part of
the sources, so the codes are modelled as an enumeration.  `F_OPTIONAL` is
the optional-parameter marker of spec section 4.5. -/
inductive FlagCode
  | F_PUBLIC
  | F_PROTECTED
  | F_PRIVATE
  | F_READONLY
  | F_ABSTRACT
  | F_PROPERTY
  | F_CLASS
  | F_METHOD
  | F_OPTIONAL
deriving DecidableEq

/-- A flag string is a concatenation of single-character codes; modelled as
a list of codes. -/
abbrev FlagString := List FlagCode

/-- Syntactic modifier kinds that can appear in a declaration modifier
list (`ts.ModifiersArray`).  The transformer inspects the first five;
the remaining constructors stand for modifier kinds it ignores. -/
inductive Modifier
  | publicKeyword
  | privateKeyword
  | protectedKeyword
  | readonlyKeyword
  | abstractKeyword
  | staticKeyword
  | exportKeyword
  | asyncKeyword
deriving DecidableEq

/-- `getVisibility` from `flags.ts`: first match wins among
public, private, protected; default public.  A TypeScript
`ts.ModifiersArray` may be `undefined`, modelled by `Option`. -/
def getVisibility (modifiers : Option (List Modifier)) : FlagCode :=
  match modifiers with
  | some ms =>
      if ms.any (fun x => x == Modifier.publicKeyword) then FlagCode.F_PUBLIC
      else if ms.any (fun x => x == Modifier.privateKeyword) then FlagCode.F_PRIVATE
      else if ms.any (fun x => x == Modifier.protectedKeyword) then FlagCode.F_PROTECTED
      else FlagCode.F_PUBLIC
  | none => FlagCode.F_PUBLIC

/-- `isReadOnly` from `flags.ts`: empty string when no modifiers or no
readonly modifier, otherwise the readonly code. -/
def isReadOnly (modifiers : Option (List Modifier)) : FlagString :=
  match modifiers with
  | none => []
  | some ms =>
      if ms.any (fun x => x == Modifier.readonlyKeyword) then [FlagCode.F_READONLY] else []

/-- `isAbstract` from `flags.ts`. -/
def isAbstract (modifiers : Option (List Modifier)) : FlagString :=
  match modifiers with
  | none => []
  | some ms =>
      if ms.any (fun x => x == Modifier.abstractKeyword) then [FlagCode.F_ABSTRACT] else []

/-- A (possibly dotted) type reference name, `ts.EntityName`. -/
inductive EntityName
  | ident (name : String)
  | qualified (left : EntityName) (right : String)
deriving DecidableEq

/-- The fragment of `ts.Expression` the transformer builds: identifiers,
property accesses, the `require(...)` call, string literals, `void 0`,
one-element array literals, and the deferred-evaluation wrapper.
`forwardRef` is modelled from the spec: section 4.4 describes it as a pure
zero-argument deferred-evaluation wrapper around an already-serialized
expression (its source file `forward-ref.ts` is not among the sources). -/
inductive Expr
  | ident (name : String)
  | propAccess (expr : Expr) (name : String)
  | callExpr (func : Expr) (args : List Expr)
  | stringLiteral (value : String)
  | voidZero
  | arrayLiteral (elements : List Expr)
  | forwardRef (wrapped : Expr)

/-- Errors raised while transforming a module: `thrown` models an explicit
`throw new Error(...)`; `typeError` models an implicit JavaScript
`TypeError` (such as reading a property of `undefined`). -/
inductive TransformError
  | thrown (message : String)
  | typeError (message : String)
deriving DecidableEq

/-- An import specifier `propertyName as name` (`propertyName` absent for a
plain named import). -/
structure ImportSpecifier where
  propertyName : Option String
  name : String
deriving DecidableEq

/-- The named bindings of an import clause: `{ a, b as c }` or `* as ns`. -/
inductive NamedBindings
  | namedImports (elements : List ImportSpecifier)
  | namespaceImport (name : String)
deriving DecidableEq

/-- An import clause: optional default binding name plus optional named
bindings (`import X, { a } from "m"`). -/
structure ImportClause where
  name : Option String
  namedBindings : Option NamedBindings
deriving DecidableEq

/-- An import declaration; `importClause` is absent for a bare
side-effect statement (`import "m"`). -/
structure ImportDecl where
  importClause : Option ImportClause
  moduleSpecifier : String
deriving DecidableEq

/-- One record of the per-module import map (interface `TypeImport`).
`referenced` is optional (initially absent, i.e. falsy) in the source and
is modelled as a `Bool` that starts out `false`. -/
structure TypeImport where
  importDeclaration : ImportDecl
  refName : String
  modulePath : String
  isNamespace : Bool
  referenced : Bool
  name : String
  localName : String
deriving DecidableEq

/-- The per-module `Map<string, TypeImport>`, modelled as an association
list in insertion order. -/
abbrev ImportMap := List (String × TypeImport)

/-- `Map.set`: replace the value at an existing key in place, otherwise
append a new entry (JavaScript maps preserve insertion order). -/
def mapSet : ImportMap → String → TypeImport → ImportMap
  | [], key, value => [(key, value)]
  | (k, v) :: rest, key, value =>
      if k == key then (k, value) :: rest else (k, v) :: mapSet rest key value

/-- `Map.get`. -/
def mapGet : ImportMap → String → Option TypeImport
  | [], _ => none
  | (k, v) :: rest, key => if k == key then some v else mapGet rest key

/-- `Map.values()`, in insertion order. -/
def mapValues (m : ImportMap) : List TypeImport := m.map Prod.snd

/-- The mutation `impo.referenced = true` performed on the record stored
under `key`. -/
def setReferenced : ImportMap → String → ImportMap
  | [], _ => []
  | (k, v) :: rest, key =>
      if k == key then (k, { v with referenced := true }) :: rest
      else (k, v) :: setReferenced rest key

/-- Modelled from the spec: `getRootNameOfEntityName` (from the `utils`
module, not among the sources) returns the leftmost identifier of a
possibly dotted type reference (glossary: root name). -/
def getRootNameOfEntityName : EntityName → String
  | EntityName.ident name => name
  | EntityName.qualified left _ => getRootNameOfEntityName left

/-- Modelled from the spec: `cloneEntityNameAsExpr` (from the `utils`
module, not among the sources) reconstructs the member-access path of an
entity name as an expression with the given name as its new root
(spec section 4.2). -/
def cloneEntityNameAsExpr : EntityName → String → Expr
  | EntityName.ident _, root => Expr.ident root
  | EntityName.qualified left right, root =>
      Expr.propAccess (cloneEntityNameAsExpr left root) right

/-- `propertyPrepend` from the transformer: prepend `expr` below a
property-access path.  For an identifier it returns `expr.name`; for a
property access whose inner expression is itself a property access it
recurses; any other shape throws `Unsupported expression type ...`
(the message names the syntactic kind of the argument). -/
def propertyPrepend (expr : Expr) (propAccess : Expr) : Except TransformError Expr :=
  match propAccess with
  | Expr.ident name => Except.ok (Expr.propAccess expr name)
  | Expr.propAccess inner name =>
      match inner with
      | Expr.propAccess a b =>
          match propertyPrepend expr (Expr.propAccess a b) with
          | Except.error e => Except.error e
          | Except.ok prepended => Except.ok (Expr.propAccess prepended name)
      | _ =>
          Except.error (TransformError.thrown "Unsupported expression type PropertyAccessExpression")
  | _ => Except.error (TransformError.thrown "Unsupported expression type")

/-- `assureTypeAvailable`: look up the root name; when tracked, mark the
record referenced and return its local alias, otherwise return the root
name unchanged. -/
def assureTypeAvailable (entityName : EntityName) (importMap : ImportMap) : String × ImportMap :=
  let rootName := getRootNameOfEntityName entityName
  match mapGet importMap rootName with
  | some impo => (impo.localName, setReferenced importMap rootName)
  | none => (rootName, importMap)

/-- `ts.ModuleKind`, reduced to the only distinction the transformer
makes: CommonJS versus anything else. -/
inductive ModuleKind
  | commonJS
  | esModule
deriving DecidableEq

/-- The compiler options the transformer reads (`module`) and writes
(`emitDecoratorMetadata`). -/
structure CompilerOptions where
  module : ModuleKind
  emitDecoratorMetadata : Bool
deriving DecidableEq

/-- A syntactic type node (`ts.TypeNode`), restricted to the shapes the
serializer distinguishes; `otherKind` stands for every other syntactic
shape (union, tuple, conditional, mapped, function, ...) and carries the
`ts.SyntaxKind` name used in the error message. -/
inductive TypeNode
  | typeReference (typeName : EntityName)
  | stringKeyword
  | numberKeyword
  | booleanKeyword
  | bigIntKeyword
  | arrayType (elementType : TypeNode)
  | otherKind (kindName : String)
deriving DecidableEq

/-- `serializeTypeRef` on a present type node.  Mirrors the source: type
references resolve their root name against the import map (with the
CommonJS `require(...)` wrapping for named imports), keyword types map to
their runtime class identifiers, arrays are structural in extended mode
and `Array` in coarse mode, and any other kind throws in extended mode and
degrades to `Object` in coarse mode. -/
def serializeTypeRefNode (moduleKind : ModuleKind) :
    TypeNode → Bool → ImportMap → Except TransformError (Expr × ImportMap)
  | TypeNode.typeReference typeName, _, importMap =>
      if moduleKind == ModuleKind.commonJS then
        let origName := getRootNameOfEntityName typeName
        let impo := mapGet importMap origName
        let expr : Expr :=
          match typeName with
          | EntityName.ident _ => Expr.ident origName
          | _ => cloneEntityNameAsExpr typeName origName
        match impo with
        | some impo =>
            let importMap := setReferenced importMap origName
            if !impo.isNamespace then
              match propertyPrepend
                  (Expr.callExpr (Expr.ident "require") [Expr.stringLiteral impo.modulePath])
                  expr with
              | Except.error e => Except.error e
              | Except.ok expr => Except.ok (expr, importMap)
            else
              let avail := assureTypeAvailable typeName importMap
              match typeName with
              | EntityName.ident _ => Except.ok (Expr.ident avail.1, avail.2)
              | _ => Except.ok (cloneEntityNameAsExpr typeName avail.1, avail.2)
        | none => Except.ok (expr, importMap)
      else
        let avail := assureTypeAvailable typeName importMap
        match typeName with
        | EntityName.ident _ => Except.ok (Expr.ident avail.1, avail.2)
        | _ => Except.ok (cloneEntityNameAsExpr typeName avail.1, avail.2)
  | TypeNode.stringKeyword, _, importMap => Except.ok (Expr.ident "String", importMap)
  | TypeNode.numberKeyword, _, importMap => Except.ok (Expr.ident "Number", importMap)
  | TypeNode.booleanKeyword, _, importMap => Except.ok (Expr.ident "Boolean", importMap)
  | TypeNode.bigIntKeyword, _, importMap => Except.ok (Expr.ident "BigInt", importMap)
  | TypeNode.arrayType elementType, extended, importMap =>
      if extended then
        match serializeTypeRefNode moduleKind elementType true importMap with
        | Except.error e => Except.error e
        | Except.ok (e, importMap) => Except.ok (Expr.arrayLiteral [e], importMap)
      else
        Except.ok (Expr.ident "Array", importMap)
  | TypeNode.otherKind kindName, extended, importMap =>
      if extended then
        Except.error
          (TransformError.thrown ("Failed to serializeTypeRef for kind " ++ kindName ++ "!"))
      else
        Except.ok (Expr.ident "Object", importMap)

/-- `serializeTypeRef`: an absent type node serializes to `void 0`. -/
def serializeTypeRef (moduleKind : ModuleKind) (typeNode : Option TypeNode) (extended : Bool)
    (importMap : ImportMap) : Except TransformError (Expr × ImportMap) :=
  match typeNode with
  | none => Except.ok (Expr.voidZero, importMap)
  | some t => serializeTypeRefNode moduleKind t extended importMap

/-- A checked type (`ts.Type`) as `typeToTypeRef` inspects it: one Boolean
per tested `ts.TypeFlags` bit (`(type.flags & flag) !== 0`). -/
structure CheckedType where
  isStringFlag : Bool
  isNumberFlag : Bool
  isBooleanFlag : Bool
  isVoidFlag : Bool
  isBigIntFlag : Bool
  isObjectFlag : Bool
deriving DecidableEq

/-- `typeToTypeRef`: the smaller checked-type table used for inferred
return types; the final fallback is the generic `Object` identifier. -/
def typeToTypeRef (type : CheckedType) : Expr :=
  if type.isStringFlag then Expr.ident "String"
  else if type.isNumberFlag then Expr.ident "Number"
  else if type.isBooleanFlag then Expr.ident "Boolean"
  else if type.isVoidFlag then Expr.voidZero
  else if type.isBigIntFlag then Expr.ident "BigInt"
  else if type.isObjectFlag then Expr.ident "Object"
  else Expr.ident "Object"

/-- A parameter declaration: literal source name, optional modifier list,
optional-parameter question token, optional type annotation. -/
structure ParameterDeclaration where
  name : String
  modifiers : Option (List Modifier)
  questionToken : Bool
  type : Option TypeNode
deriving DecidableEq

/-- The slice of `ts.FunctionLikeDeclaration` the params extractor reads. -/
structure FunctionLikeDeclaration where
  parameters : List ParameterDeclaration
deriving DecidableEq

/-- One serialized parameter descriptor: `{ n, t, f? }`; the `f` field is
present only when the flag string is non-empty. -/
structure ParamMeta where
  n : String
  t : Expr
  f : Option FlagString

/-- The value attached by a metadata decorator: a flag string, a single
literal expression, a parameter-descriptor list, or an expression list.
The generic value-to-expression serializer (`serialize`, an external
collaborator per the spec) is absorbed into this representation. -/
inductive MetaValue
  | flagsValue (flags : FlagString)
  | literalExpr (expr : Expr)
  | paramList (params : List ParamMeta)
  | exprList (exprs : List Expr)

/-- A `@__metadata(key, value)` decorator.  `metadataDecorator` itself is
an external collaborator (spec section 1: the attachment primitive); only
the key/value payload matters here. -/
structure Decorator where
  key : String
  value : MetaValue

/-- Build a metadata decorator. -/
def metadataDecorator (key : String) (value : MetaValue) : Decorator :=
  { key := key, value := value }

/-- The per-modifier flag accumulation of the parameter loop: for each
modifier, in order, push the readonly / private / public / protected code
when the modifier matches. -/
def modifierParamFlags : List Modifier → FlagString
  | [] => []
  | modifier :: rest =>
      ((if modifier == Modifier.readonlyKeyword then [FlagCode.F_READONLY] else []) ++
       (if modifier == Modifier.privateKeyword then [FlagCode.F_PRIVATE] else []) ++
       (if modifier == Modifier.publicKeyword then [FlagCode.F_PUBLIC] else []) ++
       (if modifier == Modifier.protectedKeyword then [FlagCode.F_PROTECTED] else [])) ++
      modifierParamFlags rest

/-- The flag string `f` computed for one parameter: modifier codes then
the optional marker when a question token is present. -/
def paramFlags (param : ParameterDeclaration) : FlagString :=
  (match param.modifiers with
   | some ms => modifierParamFlags ms
   | none => []) ++
  (if param.questionToken then [FlagCode.F_OPTIONAL] else [])

/-- The body of the `for (let param of method.parameters)` loop of
`extractParamsMetadata`: coarse serialization for the legacy list, flag
accumulation, extended serialization wrapped in a forward ref for the
descriptor, `f` only when non-empty. -/
def extractParamsLoop (moduleKind : ModuleKind) :
    List ParameterDeclaration → ImportMap →
      Except TransformError (List Expr × List ParamMeta × ImportMap)
  | [], importMap => Except.ok ([], [], importMap)
  | param :: rest, importMap =>
      match serializeTypeRef moduleKind param.type false importMap with
      | Except.error e => Except.error e
      | Except.ok (expr, importMap) =>
          let f := paramFlags param
          match serializeTypeRef moduleKind param.type true importMap with
          | Except.error e => Except.error e
          | Except.ok (t, importMap) =>
              let meta : ParamMeta :=
                { n := param.name, t := Expr.forwardRef t,
                  f := if f.length > 0 then some f else none }
              match extractParamsLoop moduleKind rest importMap with
              | Except.error e => Except.error e
              | Except.ok (standardParamTypes, serializedParamMeta, importMap) =>
                  Except.ok (expr :: standardParamTypes, meta :: serializedParamMeta, importMap)

/-- `extractParamsMetadata`: the `rt:p` descriptor list, plus the legacy
`design:paramtypes` when standard metadata emission is on. -/
def extractParamsMetadata (moduleKind : ModuleKind) (emitStandardMetadata : Bool)
    (method : FunctionLikeDeclaration) (importMap : ImportMap) :
    Except TransformError (List Decorator × ImportMap) :=
  match extractParamsLoop moduleKind method.parameters importMap with
  | Except.error e => Except.error e
  | Except.ok (standardParamTypes, serializedParamMeta, importMap) =>
      let decs := [metadataDecorator "rt:p" (MetaValue.paramList serializedParamMeta)]
      let decs :=
        if emitStandardMetadata then
          decs ++ [metadataDecorator "design:paramtypes" (MetaValue.exprList standardParamTypes)]
        else decs
      Except.ok (decs, importMap)

/-- `extractTypeMetadata`: the forward-ref-wrapped extended descriptor
under `rt:t`, plus the coarse legacy descriptor under `design:<name>` when
standard metadata emission is on. -/
def extractTypeMetadata (moduleKind : ModuleKind) (emitStandardMetadata : Bool)
    (type : Option TypeNode) (standardName : String) (importMap : ImportMap) :
    Except TransformError (List Decorator × ImportMap) :=
  match serializeTypeRef moduleKind type true importMap with
  | Except.error e => Except.error e
  | Except.ok (e1, importMap) =>
      let decs := [metadataDecorator "rt:t" (MetaValue.literalExpr (Expr.forwardRef e1))]
      if emitStandardMetadata then
        match serializeTypeRef moduleKind type false importMap with
        | Except.error e => Except.error e
        | Except.ok (e2, importMap) =>
            Except.ok
              (decs ++ [metadataDecorator ("design:" ++ standardName) (MetaValue.literalExpr e2)],
               importMap)
      else Except.ok (decs, importMap)

/-- A method declaration.  `inferredReturnType` models the host type
checker's `getSignatureFromDeclaration(method).getReturnType()` (the
checker is an external collaborator consumed read-only per the spec); it
is consulted only when `type` (the explicit return annotation) is
absent. -/
structure MethodDeclaration extends FunctionLikeDeclaration where
  name : String
  modifiers : Option (List Modifier)
  type : Option TypeNode
  inferredReturnType : CheckedType
  decorators : List Decorator

/-- A property declaration. -/
structure PropertyDeclaration where
  name : String
  modifiers : Option (List Modifier)
  type : Option TypeNode
  decorators : List Decorator

/-- A class member as the visitor distinguishes them. -/
inductive ClassMember
  | property (decl : PropertyDeclaration)
  | methodMember (decl : MethodDeclaration)
  | ctorMember (decl : FunctionLikeDeclaration)

/-- A class declaration. -/
structure ClassDeclaration where
  name : String
  modifiers : Option (List Modifier)
  members : List ClassMember
  decorators : List Decorator

/-- `extractMethodMetadata`: legacy `design:type`, parameter metadata,
`rt:f` flags, then the return type: an explicit annotation is serialized
(the intermediate `returnType` serialization of the source is evaluated
for its effects even though its value is unused) and emitted through
`extractTypeMetadata`; otherwise the checked-type table supplies the
forward-ref-wrapped `rt:t` value and legacy `design:returntype` is
`void 0`. -/
def extractMethodMetadata (moduleKind : ModuleKind) (emitStandardMetadata : Bool)
    (method : MethodDeclaration) (importMap : ImportMap) :
    Except TransformError (List Decorator × ImportMap) :=
  let decs : List Decorator :=
    if emitStandardMetadata then
      [metadataDecorator "design:type" (MetaValue.literalExpr (Expr.ident "Function"))]
    else []
  match extractParamsMetadata moduleKind emitStandardMetadata method.toFunctionLikeDeclaration
      importMap with
  | Except.error e => Except.error e
  | Except.ok (paramDecs, importMap) =>
      let decs := decs ++ paramDecs ++
        [metadataDecorator "rt:f"
          (MetaValue.flagsValue
            ([FlagCode.F_METHOD, getVisibility method.modifiers] ++
              isAbstract method.modifiers))]
      match method.type with
      | some t =>
          match serializeTypeRefNode moduleKind t true importMap with
          | Except.error e => Except.error e
          | Except.ok (_, importMap) =>
              match extractTypeMetadata moduleKind emitStandardMetadata (some t) "returntype"
                  importMap with
              | Except.error e => Except.error e
              | Except.ok (typeDecs, importMap) => Except.ok (decs ++ typeDecs, importMap)
      | none =>
          let returnT := typeToTypeRef method.inferredReturnType
          let decs :=
            decs ++ [metadataDecorator "rt:t" (MetaValue.literalExpr (Expr.forwardRef returnT))]
          let decs :=
            if emitStandardMetadata then
              decs ++ [metadataDecorator "design:returntype" (MetaValue.literalExpr Expr.voidZero)]
            else decs
          Except.ok (decs, importMap)

/-- `extractPropertyMetadata`: the type descriptors then the `rt:f` flag
string (property kind, visibility, readonly). -/
def extractPropertyMetadata (moduleKind : ModuleKind) (emitStandardMetadata : Bool)
    (property : PropertyDeclaration) (importMap : ImportMap) :
    Except TransformError (List Decorator × ImportMap) :=
  match extractTypeMetadata moduleKind emitStandardMetadata property.type "type" importMap with
  | Except.error e => Except.error e
  | Except.ok (typeDecs, importMap) =>
      Except.ok
        (typeDecs ++
          [metadataDecorator "rt:f"
            (MetaValue.flagsValue
              ([FlagCode.F_PROPERTY, getVisibility property.modifiers] ++
                isReadOnly property.modifiers))],
         importMap)

/-- `extractClassMetadata`: the constructor's parameter metadata (when a
constructor exists) followed by the class `rt:f` flag string. -/
def extractClassMetadata (moduleKind : ModuleKind) (emitStandardMetadata : Bool)
    (klass : ClassDeclaration) (importMap : ImportMap) :
    Except TransformError (List Decorator × ImportMap) :=
  let flagsDec :=
    metadataDecorator "rt:f"
      (MetaValue.flagsValue
        ([FlagCode.F_CLASS, getVisibility klass.modifiers] ++ isAbstract klass.modifiers))
  let constructorDecl :=
    klass.members.find? (fun x => match x with | ClassMember.ctorMember _ => true | _ => false)
  match constructorDecl with
  | some (ClassMember.ctorMember c) =>
      match extractParamsMetadata moduleKind emitStandardMetadata c importMap with
      | Except.error e => Except.error e
      | Except.ok (paramDecs, importMap) => Except.ok (paramDecs ++ [flagsDec], importMap)
  | _ => Except.ok ([flagsDec], importMap)

/-- The import-scanning branch of the visitor.  A clause with no named
bindings (a default-only import such as `import X from "mod"`) makes the
source call `ts.isNamedImports(undefined)`, which dereferences `.kind` of
`undefined` -- an implicit JavaScript `TypeError`, modelled as such. -/
def scanImportDeclaration (node : ImportDecl) (importMap : ImportMap) :
    Except TransformError ImportMap :=
  match node.importClause with
  | none => Except.ok importMap
  | some importClause =>
      match importClause.namedBindings with
      | none => Except.error (TransformError.typeError "Cannot read properties of undefined")
      | some (NamedBindings.namedImports elements) =>
          Except.ok (elements.foldl (fun importMap binding =>
            mapSet importMap binding.name
              { name := binding.name,
                localName := (binding.propertyName.getD binding.name) ++ "Φ",
                refName := binding.name,
                modulePath := node.moduleSpecifier,
                isNamespace := false,
                referenced := false,
                importDeclaration := node }) importMap)
      | some (NamedBindings.namespaceImport nm) =>
          Except.ok (mapSet importMap nm
            { name := nm,
              localName := nm ++ "Φ",
              modulePath := node.moduleSpecifier,
              refName := nm,
              isNamespace := true,
              referenced := false,
              importDeclaration := node })

/-- A module-level statement as the pass distinguishes them:
an import declaration, a class declaration, the injected runtime helper
(`rtHelper()`, an opaque external collaborator per spec section 6), or any
other statement. -/
inductive Stmt
  | importStmt (decl : ImportDecl)
  | classStmt (klass : ClassDeclaration)
  | rtHelperStmt
  | otherStmt (tag : Nat)

/-- The visitor on one class member: properties and methods get their
extracted metadata decorators appended; constructors pass through (their
parameter metadata is attached to the class). -/
def visitMember (moduleKind : ModuleKind) (emitStandardMetadata : Bool) (member : ClassMember)
    (importMap : ImportMap) : Except TransformError (ClassMember × ImportMap) :=
  match member with
  | ClassMember.property p =>
      match extractPropertyMetadata moduleKind emitStandardMetadata p importMap with
      | Except.error e => Except.error e
      | Except.ok (decs, importMap) =>
          Except.ok (ClassMember.property { p with decorators := p.decorators ++ decs }, importMap)
  | ClassMember.methodMember me =>
      match extractMethodMetadata moduleKind emitStandardMetadata me importMap with
      | Except.error e => Except.error e
      | Except.ok (decs, importMap) =>
          Except.ok
            (ClassMember.methodMember { me with decorators := me.decorators ++ decs }, importMap)
  | ClassMember.ctorMember _ => Except.ok (member, importMap)

/-- The visitor over a class's members, in order. -/
def visitMembers (moduleKind : ModuleKind) (emitStandardMetadata : Bool) :
    List ClassMember → ImportMap → Except TransformError (List ClassMember × ImportMap)
  | [], importMap => Except.ok ([], importMap)
  | member :: rest, importMap =>
      match visitMember moduleKind emitStandardMetadata member importMap with
      | Except.error e => Except.error e
      | Except.ok (member, importMap) =>
          match visitMembers moduleKind emitStandardMetadata rest importMap with
          | Except.error e => Except.error e
          | Except.ok (rest, importMap) => Except.ok (member :: rest, importMap)

/-- The visitor on one statement: import declarations feed the import map
scan; class declarations get class metadata appended and then their
children visited; everything else passes through. -/
def visitStmt (moduleKind : ModuleKind) (emitStandardMetadata : Bool) (s : Stmt)
    (importMap : ImportMap) : Except TransformError (Stmt × ImportMap) :=
  match s with
  | Stmt.importStmt d =>
      match scanImportDeclaration d importMap with
      | Except.error e => Except.error e
      | Except.ok importMap => Except.ok (Stmt.importStmt d, importMap)
  | Stmt.classStmt klass =>
      match extractClassMetadata moduleKind emitStandardMetadata klass importMap with
      | Except.error e => Except.error e
      | Except.ok (decs, importMap) =>
          match visitMembers moduleKind emitStandardMetadata klass.members importMap with
          | Except.error e => Except.error e
          | Except.ok (members, importMap) =>
              Except.ok
                (Stmt.classStmt
                  { klass with decorators := klass.decorators ++ decs, members := members },
                 importMap)
  | Stmt.rtHelperStmt => Except.ok (s, importMap)
  | Stmt.otherStmt _ => Except.ok (s, importMap)

/-- The single top-down walk over the statement list (imports are scanned
in walk order, interleaved with declaration processing). -/
def visitStmts (moduleKind : ModuleKind) (emitStandardMetadata : Bool) :
    List Stmt → ImportMap → Except TransformError (List Stmt × ImportMap)
  | [], importMap => Except.ok ([], importMap)
  | s :: rest, importMap =>
      match visitStmt moduleKind emitStandardMetadata s importMap with
      | Except.error e => Except.error e
      | Except.ok (s, importMap) =>
          match visitStmts moduleKind emitStandardMetadata rest importMap with
          | Except.error e => Except.error e
          | Except.ok (rest, importMap) => Except.ok (s :: rest, importMap)

/-- The synthesized import built by `generateImports` for one record: a
namespace import of the alias for namespace records, otherwise a named
binding `{ refName as localName }`, from the original declaration module
specifier. -/
def synthesizedImportFor (impo : TypeImport) : ImportDecl :=
  { importClause := some
      { name := none,
        namedBindings := some
          (if impo.isNamespace then NamedBindings.namespaceImport impo.localName
           else NamedBindings.namedImports
             [{ propertyName := some impo.refName, name := impo.localName }]) },
    moduleSpecifier := impo.importDeclaration.moduleSpecifier }

/-- Whether a statement is the given import declaration; this stands in
for the reference-identity `statements.indexOf(impo.importDeclaration)`
test of the source. -/
def stmtIsImportDecl (s : Stmt) (d : ImportDecl) : Bool :=
  match s with
  | Stmt.importStmt d2 => d2 == d
  | _ => false

/-- `Array.prototype.indexOf` over statements, matching the record's
original import declaration; `none` when absent. -/
def stmtIndexOf : List Stmt → ImportDecl → Option Nat
  | [], _ => none
  | s :: rest, d =>
      if stmtIsImportDecl s d then some 0
      else
        match stmtIndexOf rest d with
        | some i => some (i + 1)
        | none => none

/-- `statements.splice(idx, 0, s)`: insert `s` at position `idx`. -/
def spliceInsert : List Stmt → Nat → Stmt → List Stmt
  | s, 0, x => x :: s
  | [], _ + 1, x => [x]
  | a :: rest, i + 1, x => a :: spliceInsert rest i x

/-- One iteration of the `generateImports` loop body: skip unreferenced
records and (under CommonJS) named records, otherwise splice the
synthesized import in before the record's original import statement, or
at the top when that statement is not found. -/
def generateImportsStep (isCommonJS : Bool) (statements : List Stmt) (impo : TypeImport) :
    List Stmt :=
  if !impo.referenced then statements
  else if isCommonJS && !impo.isNamespace then statements
  else
    let ownedImpo := Stmt.importStmt (synthesizedImportFor impo)
    match stmtIndexOf statements impo.importDeclaration with
    | some impoIndex => spliceInsert statements impoIndex ownedImpo
    | none => spliceInsert statements 0 ownedImpo

/-- `generateImports`: for every referenced record (skipping named records
under CommonJS, which are loaded through `require` directly), insert the
synthesized alias import immediately before the record's original import
statement, or at the top of the module when that statement cannot be
found. -/
def generateImports (opts : CompilerOptions) (importMap : ImportMap)
    (statements : List Stmt) : List Stmt :=
  let isCommonJS := opts.module == ModuleKind.commonJS
  (mapValues importMap).foldl (generateImportsStep isCommonJS) statements

/-- A parsed module. -/
structure SourceFile where
  statements : List Stmt

/-- One whole-module run of the pass: inject the runtime helper at the
top, walk the statements with a fresh import map, then synthesize the
referenced imports into the statement list. -/
def transformSourceFile (contextOptions : CompilerOptions) (emitStandardMetadata : Bool)
    (sourceFile : SourceFile) : Except TransformError SourceFile :=
  let statements := Stmt.rtHelperStmt :: sourceFile.statements
  match visitStmts contextOptions.module emitStandardMetadata statements [] with
  | Except.error e => Except.error e
  | Except.ok (statements, importMap) =>
      Except.ok { statements := generateImports contextOptions importMap statements }

/-- The transformer factory body (source lines 45-48): capture the host
program's `emitDecoratorMetadata` option, then assign `false` to it on the
program's own compiler options object.  The mutation of the host state is
modelled by returning the captured flag together with the options object
as it stands after the assignment. -/
def transformer (programOptions : CompilerOptions) : Bool × CompilerOptions :=
  (programOptions.emitDecoratorMetadata, { programOptions with emitDecoratorMetadata := false })

/-- Specification-side restatement of the visibility contract, following
the spec's words: first match in the precedence order public > private >
protected, public when none is present. -/
def visibilitySpec (modifiers : Option (List Modifier)) : FlagCode :=
  if Modifier.publicKeyword ∈ modifiers.getD [] then FlagCode.F_PUBLIC
  else if Modifier.privateKeyword ∈ modifiers.getD [] then FlagCode.F_PRIVATE
  else if Modifier.protectedKeyword ∈ modifiers.getD [] then FlagCode.F_PROTECTED
  else FlagCode.F_PUBLIC

/-- Specification-side shape of one emitted parameter descriptor: the
literal name, the forward-ref-wrapped serialized type, and the flag field
only when the flag string is non-empty. -/
def paramMetaSpec (param : ParameterDeclaration) (t : Expr) : ParamMeta :=
  { n := param.name, t := Expr.forwardRef t,
    f := if (paramFlags param).length > 0 then some (paramFlags param) else none }

/-- Specification-side description of the per-parameter serialization
chain: in declaration order, each parameter's declared type is serialized
first in coarse mode (for the legacy list `stds`) and then in extended
mode (producing the wrapped expression in `ts`), with the import map
threaded through both; the final map is `m2`.  This pins every descriptor
type expression to the extended-form serialization of its parameter's
declared type at the state the loop reaches it. -/
def paramsSerializeSpec (moduleKind : ModuleKind) :
    List ParameterDeclaration → ImportMap → List Expr → List Expr → ImportMap → Prop
  | [], m, stds, ts, m2 => stds = [] ∧ ts = [] ∧ m2 = m
  | param :: rest, m, stds, ts, m2 =>
      ∃ (e : Expr) (mid : ImportMap) (t : Expr) (mNext : ImportMap)
        (stdsRest tsRest : List Expr),
        serializeTypeRef moduleKind param.type false m = Except.ok (e, mid) ∧
        serializeTypeRef moduleKind param.type true mid = Except.ok (t, mNext) ∧
        paramsSerializeSpec moduleKind rest mNext stdsRest tsRest m2 ∧
        stds = e :: stdsRest ∧ ts = t :: tsRest

/-- Whether a parameter's modifier list contains any modifier that
contributes a flag character. -/
def hasParamFlagModifiers : Option (List Modifier) → Bool
  | none => false
  | some ms =>
      ms.any (fun mo =>
        mo == Modifier.readonlyKeyword || mo == Modifier.privateKeyword ||
        mo == Modifier.publicKeyword || mo == Modifier.protectedKeyword)

/-- Specification-side emission condition of `generateImports`: a record
produces a synthesized import exactly when it is referenced and is not a
named (non-namespace) record under CommonJS. -/
def shouldEmitSpec (opts : CompilerOptions) (impo : TypeImport) : Bool :=
  impo.referenced && !((opts.module == ModuleKind.commonJS) && !impo.isNamespace)

/-- Non-CommonJS compiler options with standard metadata emission off. -/
def optionsES : CompilerOptions := { module := ModuleKind.esModule, emitDecoratorMetadata := false }

/-- `import { x } from "y"`. -/
def importX : ImportDecl :=
  { importClause := some
      { name := none,
        namedBindings := some (NamedBindings.namedImports [{ propertyName := none, name := "x" }]) },
    moduleSpecifier := "y" }

/-- A class with a single property `p : x`. -/
def classWithPropX : ClassDeclaration :=
  { name := "C", modifiers := none,
    members := [ClassMember.property
      { name := "p", modifiers := none,
        type := some (TypeNode.typeReference (EntityName.ident "x")), decorators := [] }],
    decorators := [] }

/-- A module importing `x` from `y` and referencing it from a property
type. -/
def sampleModule : SourceFile :=
  { statements := [Stmt.importStmt importX, Stmt.classStmt classWithPropX] }

/-- The alias import the pass synthesizes for the `x` record:
`import { x as xΦ } from "y"`. -/
def synthXImport : ImportDecl :=
  { importClause := some
      { name := none,
        namedBindings := some
          (NamedBindings.namedImports [{ propertyName := some "x", name := "xΦ" }]) },
    moduleSpecifier := "y" }

/-- Count the occurrences of the synthesized `x` alias import in a
module. -/
def countSynthX (sf : SourceFile) : Nat :=
  sf.statements.countP (fun s => stmtIsImportDecl s synthXImport)

/-- `import { A, B } from "m"`. -/
def importAB : ImportDecl :=
  { importClause := some
      { name := none,
        namedBindings := some (NamedBindings.namedImports
          [{ propertyName := none, name := "A" }, { propertyName := none, name := "B" }]) },
    moduleSpecifier := "m" }

/-- The referenced import-map record for `A` of `importAB`. -/
def recordA : TypeImport :=
  { importDeclaration := importAB, refName := "A", modulePath := "m", isNamespace := false,
    referenced := true, name := "A", localName := "AΦ" }

/-- The referenced import-map record for `B` of `importAB`. -/
def recordB : TypeImport :=
  { importDeclaration := importAB, refName := "B", modulePath := "m", isNamespace := false,
    referenced := true, name := "B", localName := "BΦ" }

/-- `import { A as B } from "mod1"`. -/
def importAasB : ImportDecl :=
  { importClause := some
      { name := none,
        namedBindings := some
          (NamedBindings.namedImports [{ propertyName := some "A", name := "B" }]) },
    moduleSpecifier := "mod1" }

/-- `import { A as C } from "mod2"`. -/
def importAasC : ImportDecl :=
  { importClause := some
      { name := none,
        namedBindings := some
          (NamedBindings.namedImports [{ propertyName := some "A", name := "C" }]) },
    moduleSpecifier := "mod2" }

/-- `import X from "mod"` (default-only import clause). -/
def importDefaultX : ImportDecl :=
  { importClause := some { name := some "X", namedBindings := none }, moduleSpecifier := "mod" }

/-- A parameter `public count: number`. -/
def paramCount : ParameterDeclaration :=
  { name := "count", modifiers := some [Modifier.publicKeyword], questionToken := false,
    type := some TypeNode.numberKeyword }

/-- A function-like declaration with the single parameter `paramCount`. -/
def methodCount : FunctionLikeDeclaration := { parameters := [paramCount] }

/-- A method with no parameters, no explicit return annotation, and an
inferred checked return type in no recognized category. -/
def methodNoAnnotation : MethodDeclaration :=
  { parameters := [], name := "m", modifiers := none, type := none,
    inferredReturnType :=
      { isStringFlag := false, isNumberFlag := false, isBooleanFlag := false,
        isVoidFlag := false, isBigIntFlag := false, isObjectFlag := false },
    decorators := [] }

/-! ### Helper lemmas -/

theorem any_beq_iff_mem (ms : List Modifier) (k : Modifier) :
    (ms.any fun x => x == k) = true ↔ k ∈ ms := by
  rw [List.any_eq_true]
  constructor
  · rintro ⟨x, hx, he⟩
    have h2 : x = k := by simpa using he
    exact h2 ▸ hx
  · intro hk
    exact ⟨k, hk, by simp⟩

theorem mapGet_mapSet_self (m : ImportMap) (key : String) (value : TypeImport) :
    mapGet (mapSet m key value) key = some value := by
  induction m with
  | nil => simp [mapSet, mapGet]
  | cons p rest ih =>
      obtain ⟨k, v⟩ := p
      cases hk : (k == key) with
      | true => simp [mapSet, mapGet, hk]
      | false => simp [mapSet, mapGet, hk, ih]

theorem string_append_right_cancel (a b c : String) (h : a ++ c = b ++ c) : a = b := by
  apply String.ext
  have h2 := congrArg String.data h
  rw [String.data_append, String.data_append] at h2
  exact List.append_cancel_right h2

theorem spliceInsert_length (s : List Stmt) (i : Nat) (x : Stmt) :
    (spliceInsert s i x).length = s.length + 1 := by
  induction s generalizing i with
  | nil => cases i <;> simp [spliceInsert]
  | cons a rest ih => cases i <;> simp [spliceInsert, ih]

theorem spliceInsert_get_lt (s : List Stmt) (i j : Nat) (x : Stmt) (hj : j < i)
    (hi : i ≤ s.length) : (spliceInsert s i x).get? j = s.get? j := by
  induction s generalizing i j with
  | nil =>
      simp only [List.length_nil, Nat.le_zero] at hi
      omega
  | cons a rest ih =>
      cases i with
      | zero => omega
      | succ i2 =>
          cases j with
          | zero => simp [spliceInsert]
          | succ j2 =>
              simp only [spliceInsert, List.get?]
              exact ih i2 j2 (by omega) (by simpa using hi)

theorem spliceInsert_get_self (s : List Stmt) (i : Nat) (x : Stmt) (hi : i ≤ s.length) :
    (spliceInsert s i x).get? i = some x := by
  induction s generalizing i with
  | nil =>
      have h0 : i = 0 := by simpa using hi
      subst h0
      simp [spliceInsert]
  | cons a rest ih =>
      cases i with
      | zero => simp [spliceInsert]
      | succ i2 =>
          simp only [spliceInsert, List.get?]
          exact ih i2 (by simpa using hi)

theorem spliceInsert_get_succ (s : List Stmt) (i : Nat) (x : Stmt) :
    (spliceInsert s i x).get? (i + 1) = s.get? i := by
  induction s generalizing i with
  | nil => cases i <;> simp [spliceInsert]
  | cons a rest ih =>
      cases i with
      | zero => simp [spliceInsert]
      | succ i2 =>
          simp only [spliceInsert, List.get?]
          exact ih i2

theorem spliceInsert_countP (s : List Stmt) (i : Nat) (x : Stmt) (p : Stmt → Bool) :
    (spliceInsert s i x).countP p = s.countP p + (if p x then 1 else 0) := by
  induction s generalizing i with
  | nil =>
      cases i with
      | zero => simp [spliceInsert, List.countP_cons]
      | succ i2 => simp [spliceInsert, List.countP_cons]
  | cons a rest ih =>
      cases i with
      | zero => simp only [spliceInsert, List.countP_cons]
      | succ i2 =>
          simp only [spliceInsert, List.countP_cons, ih]
          omega

theorem stmtIsImportDecl_eq (s : Stmt) (d : ImportDecl) (h : stmtIsImportDecl s d = true) :
    s = Stmt.importStmt d := by
  cases s with
  | importStmt d2 =>
      have h2 : d2 = d := by simpa [stmtIsImportDecl] using h
      rw [h2]
  | classStmt k => simp [stmtIsImportDecl] at h
  | rtHelperStmt => simp [stmtIsImportDecl] at h
  | otherStmt t => simp [stmtIsImportDecl] at h

theorem stmtIndexOf_lt_length (s : List Stmt) (d : ImportDecl) (i : Nat)
    (h : stmtIndexOf s d = some i) : i < s.length := by
  induction s generalizing i with
  | nil => simp [stmtIndexOf] at h
  | cons a rest ih =>
      by_cases ha : stmtIsImportDecl a d = true
      · simp only [stmtIndexOf, ha, if_true, Option.some.injEq] at h
        simp only [List.length_cons]
        omega
      · cases hrest : stmtIndexOf rest d with
        | none => simp [stmtIndexOf, ha, hrest] at h
        | some j =>
            simp only [stmtIndexOf, ha, hrest, if_false] at h
            have hji : j + 1 = i := by simpa using h
            have := ih j hrest
            simp only [List.length_cons]
            omega

theorem stmtIndexOf_get (s : List Stmt) (d : ImportDecl) (i : Nat)
    (h : stmtIndexOf s d = some i) : s.get? i = some (Stmt.importStmt d) := by
  induction s generalizing i with
  | nil => simp [stmtIndexOf] at h
  | cons a rest ih =>
      by_cases ha : stmtIsImportDecl a d = true
      · simp only [stmtIndexOf, ha, if_true, Option.some.injEq] at h
        subst h
        simp [stmtIsImportDecl_eq a d ha]
      · cases hrest : stmtIndexOf rest d with
        | none => simp [stmtIndexOf, ha, hrest] at h
        | some j =>
            simp only [stmtIndexOf, ha, hrest, if_false] at h
            have hji : j + 1 = i := by simpa using h
            subst hji
            simpa using ih j hrest

theorem generateImportsStep_length (isCommonJS : Bool) (s : List Stmt) (impo : TypeImport) :
    (generateImportsStep isCommonJS s impo).length =
      s.length + (if impo.referenced && !(isCommonJS && !impo.isNamespace) then 1 else 0) := by
  unfold generateImportsStep
  cases href : impo.referenced with
  | false => simp
  | true =>
      cases hskip : (isCommonJS && !impo.isNamespace) with
      | true => simp [hskip]
      | false =>
          simp only [hskip, Bool.not_true, Bool.not_false, Bool.and_true, if_true, Bool.false_eq_true,
            if_false]
          cases hidx : stmtIndexOf s impo.importDeclaration with
          | some j => simp [spliceInsert_length]
          | none => simp [spliceInsert_length]

theorem generateImports_foldl_length (isCommonJS : Bool) (records : List TypeImport)
    (s : List Stmt) :
    (records.foldl (generateImportsStep isCommonJS) s).length =
      s.length +
        (records.filter
          (fun impo => impo.referenced && !(isCommonJS && !impo.isNamespace))).length := by
  induction records generalizing s with
  | nil => simp
  | cons impo rest ih =>
      simp only [List.foldl_cons, List.filter_cons]
      rw [ih, generateImportsStep_length]
      cases hc : (impo.referenced && !(isCommonJS && !impo.isNamespace)) with
      | true => simp; omega
      | false => simp

theorem shouldEmitSpec_true_elim (opts : CompilerOptions) (impo : TypeImport)
    (hs : shouldEmitSpec opts impo = true) :
    impo.referenced = true ∧
      ((opts.module == ModuleKind.commonJS) && !impo.isNamespace) = false := by
  unfold shouldEmitSpec at hs
  constructor
  · cases href : impo.referenced with
    | true => rfl
    | false => rw [href] at hs; simp at hs
  · cases hc : ((opts.module == ModuleKind.commonJS) && !impo.isNamespace) with
    | false => rfl
    | true => rw [hc] at hs; simp at hs

theorem mem_modifierParamFlags_readonly (ms : List Modifier) :
    FlagCode.F_READONLY ∈ modifierParamFlags ms ↔ Modifier.readonlyKeyword ∈ ms := by
  induction ms with
  | nil => simp [modifierParamFlags]
  | cons mo rest ih => cases mo <;> simp [modifierParamFlags, ih]

theorem mem_modifierParamFlags_private (ms : List Modifier) :
    FlagCode.F_PRIVATE ∈ modifierParamFlags ms ↔ Modifier.privateKeyword ∈ ms := by
  induction ms with
  | nil => simp [modifierParamFlags]
  | cons mo rest ih => cases mo <;> simp [modifierParamFlags, ih]

theorem mem_modifierParamFlags_public (ms : List Modifier) :
    FlagCode.F_PUBLIC ∈ modifierParamFlags ms ↔ Modifier.publicKeyword ∈ ms := by
  induction ms with
  | nil => simp [modifierParamFlags]
  | cons mo rest ih => cases mo <;> simp [modifierParamFlags, ih]

theorem mem_modifierParamFlags_protected (ms : List Modifier) :
    FlagCode.F_PROTECTED ∈ modifierParamFlags ms ↔ Modifier.protectedKeyword ∈ ms := by
  induction ms with
  | nil => simp [modifierParamFlags]
  | cons mo rest ih => cases mo <;> simp [modifierParamFlags, ih]

theorem optional_not_mem_modifierParamFlags (ms : List Modifier) :
    FlagCode.F_OPTIONAL ∉ modifierParamFlags ms := by
  induction ms with
  | nil => simp [modifierParamFlags]
  | cons mo rest ih => cases mo <;> simp [modifierParamFlags, ih]

theorem modifierParamFlags_eq_nil (ms : List Modifier) :
    modifierParamFlags ms = [] ↔
      (ms.any fun mo =>
        mo == Modifier.readonlyKeyword || mo == Modifier.privateKeyword ||
        mo == Modifier.publicKeyword || mo == Modifier.protectedKeyword) = false := by
  induction ms with
  | nil => simp [modifierParamFlags]
  | cons mo rest ih => cases mo <;> simp [modifierParamFlags, ih]

theorem paramFlags_eq_nil (param : ParameterDeclaration) :
    paramFlags param = [] ↔
      hasParamFlagModifiers param.modifiers = false ∧ param.questionToken = false := by
  unfold paramFlags hasParamFlagModifiers
  cases hm : param.modifiers with
  | none => cases hq : param.questionToken <;> simp
  | some ms => cases hq : param.questionToken <;> simp [modifierParamFlags_eq_nil]

theorem mem_paramFlags_optional (param : ParameterDeclaration) :
    FlagCode.F_OPTIONAL ∈ paramFlags param ↔ param.questionToken = true := by
  unfold paramFlags
  cases hm : param.modifiers with
  | none => cases hq : param.questionToken <;> simp
  | some ms =>
      cases hq : param.questionToken <;> simp [optional_not_mem_modifierParamFlags]

theorem propertyPrepend_clone_qualified (expr : Expr) (q : EntityName) (r root : String) :
    propertyPrepend expr (cloneEntityNameAsExpr (EntityName.qualified q r) root) =
      Except.error
        (TransformError.thrown "Unsupported expression type PropertyAccessExpression") := by
  induction q generalizing r with
  | ident n => rfl
  | qualified q2 r2 ih =>
      have h2 := ih r2
      simp only [cloneEntityNameAsExpr] at h2 ⊢
      simp only [propertyPrepend, h2]

theorem extractParamsLoop_shape (moduleKind : ModuleKind) (params : List ParameterDeclaration)
    (importMap : ImportMap) (stds : List Expr) (metas : List ParamMeta) (m2 : ImportMap)
    (h : extractParamsLoop moduleKind params importMap = Except.ok (stds, metas, m2)) :
    ∃ ts : List Expr, ts.length = params.length ∧
      metas = List.zipWith paramMetaSpec params ts ∧
      paramsSerializeSpec moduleKind params importMap stds ts m2 := by
  induction params generalizing importMap stds metas m2 with
  | nil =>
      simp only [extractParamsLoop, Except.ok.injEq, Prod.mk.injEq] at h
      obtain ⟨h1, h2, h3⟩ := h
      refine ⟨[], rfl, by simpa using h2.symm, ?_⟩
      simp only [paramsSerializeSpec]
      refine ⟨h1.symm, ?_, h3.symm⟩
      trivial
  | cons param rest ih =>
      cases hc : serializeTypeRef moduleKind param.type false importMap with
      | error e => simp [extractParamsLoop, hc] at h
      | ok res1 =>
          obtain ⟨expr, m1⟩ := res1
          cases he : serializeTypeRef moduleKind param.type true m1 with
          | error e => simp [extractParamsLoop, hc, he] at h
          | ok res2 =>
              obtain ⟨t, mInner⟩ := res2
              cases hr : extractParamsLoop moduleKind rest mInner with
              | error e => simp [extractParamsLoop, hc, he, hr] at h
              | ok res3 =>
                  obtain ⟨stdsRest, metasRest, m3⟩ := res3
                  simp only [extractParamsLoop, hc, he, hr, Except.ok.injEq,
                    Prod.mk.injEq] at h
                  obtain ⟨h1, h2, h3⟩ := h
                  obtain ⟨ts, hts, hmetas, hspec⟩ := ih mInner stdsRest metasRest m3 hr
                  refine ⟨t :: ts, by simp [hts], ?_, ?_⟩
                  · rw [← h2, hmetas]
                    simp [paramMetaSpec]
                  · simp only [paramsSerializeSpec]
                    subst h3
                    exact ⟨expr, m1, t, mInner, stdsRest, ts, hc, he, hspec, h1.symm, rfl⟩

/-! ### Claim theorems -/

/-- C1: for every type node whose syntactic shape is none of the
recognized cases, extended-mode serialization raises the fatal error
naming the unsupported kind, and coarse mode returns the generic `Object`
runtime class identifier without failing or touching the import map. -/
theorem C1_serializeTypeRef_unsupported_kind (moduleKind : ModuleKind) (kindName : String)
    (importMap : ImportMap) :
    serializeTypeRef moduleKind (some (TypeNode.otherKind kindName)) true importMap =
      Except.error
        (TransformError.thrown ("Failed to serializeTypeRef for kind " ++ kindName ++ "!")) ∧
    serializeTypeRef moduleKind (some (TypeNode.otherKind kindName)) false importMap =
      Except.ok (Expr.ident "Object", importMap) :=
  ⟨rfl, rfl⟩

/-- C2: for every modifier list (including absent and empty ones), the
flag encoder's visibility function returns exactly one visibility code,
equal to the first match in the precedence order public > private >
protected, and the public code when no visibility modifier is present. -/
theorem C2_getVisibility_precedence :
    ∀ modifiers : Option (List Modifier),
      getVisibility modifiers = visibilitySpec modifiers ∧
      (getVisibility modifiers = FlagCode.F_PUBLIC ∨
        getVisibility modifiers = FlagCode.F_PRIVATE ∨
        getVisibility modifiers = FlagCode.F_PROTECTED) := by
  intro modifiers
  constructor
  · cases modifiers with
    | none => rfl
    | some ms =>
        simp only [getVisibility, visibilitySpec, Option.getD_some]
        by_cases h1 : Modifier.publicKeyword ∈ ms
        · simp [any_beq_iff_mem, h1]
        · by_cases h2 : Modifier.privateKeyword ∈ ms
          · simp [any_beq_iff_mem, h1, h2]
          · by_cases h3 : Modifier.protectedKeyword ∈ ms
            · simp [any_beq_iff_mem, h1, h2, h3]
            · simp [any_beq_iff_mem, h1, h2, h3]
  · cases modifiers with
    | none => exact Or.inl rfl
    | some ms =>
        simp only [getVisibility]
        split_ifs
        · exact Or.inl rfl
        · exact Or.inr (Or.inl rfl)
        · exact Or.inr (Or.inr rfl)
        · exact Or.inl rfl

/-- C7: counterexample to read-only consumption of the host state -- the
transformer factory mutates the host program's compiler options, clearing
`emitDecoratorMetadata`: on options with the flag set, the options object
after the factory runs differs from the one passed in. -/
theorem C7_compiler_options_mutated :
    (transformer { module := ModuleKind.commonJS, emitDecoratorMetadata := true }).2 ≠
      { module := ModuleKind.commonJS, emitDecoratorMetadata := true } := by
  decide

/-- C7 (amended): the parsed module and checker are consumed read-only
(the pass returns a fresh module value), but the factory performs exactly
one mutation of host compiler state: it captures `emitDecoratorMetadata`
and then clears it, leaving every other option (the module kind)
unchanged. -/
theorem C7_transformer_clears_flag :
    ∀ programOptions : CompilerOptions,
      (transformer programOptions).1 = programOptions.emitDecoratorMetadata ∧
      (transformer programOptions).2.emitDecoratorMetadata = false ∧
      (transformer programOptions).2.module = programOptions.module :=
  fun _ => ⟨rfl, rfl, rfl⟩

/-- C10: a default-only import clause (`import X from "mod"`) makes the
scan of imports throw an implicit `TypeError` (the source calls
`ts.isNamedImports` on an `undefined` bindings object) instead of simply
creating no record, while a bare side-effect import is skipped without a
record as the claim states. -/
theorem C10_default_import_crash :
    scanImportDeclaration importDefaultX [] =
      Except.error (TransformError.typeError "Cannot read properties of undefined") ∧
    scanImportDeclaration { importClause := none, moduleSpecifier := "polyfill" } [] =
      Except.ok [] :=
  ⟨rfl, rfl⟩

/-- C3: counterexample to localName uniqueness -- scanning
`import { A as B } from "mod1"` and `import { A as C } from "mod2"` in one
module produces two distinct records (keys `B` and `C`) that share the
localName `AΦ`, because the alias is derived from the original
(pre-alias) imported name. -/
theorem C3_localName_collision :
    ((scanImportDeclaration importAasB []).bind (scanImportDeclaration importAasC)).map
        (fun m =>
          ((mapGet m "B").map TypeImport.localName, (mapGet m "C").map TypeImport.localName)) =
      Except.ok (some "AΦ", some "AΦ") := by
  rfl

/-- C3 (amended): each named-import record's localName is the original
(pre-alias) imported name with `Φ` appended, so localNames are distinct
whenever the original names are distinct; uniqueness fails when two
aliased imports share an original name, and `Φ` is an ordinary identifier
character, so the marker is not collision-proof against user
identifiers. -/
theorem C3_localName_construction :
    (∀ (propertyName : Option String) (nm mp : String) (importMap : ImportMap),
        ∃ m2,
          scanImportDeclaration
              { importClause := some
                  { name := none,
                    namedBindings := some
                      (NamedBindings.namedImports
                        [{ propertyName := propertyName, name := nm }]) },
                moduleSpecifier := mp } importMap = Except.ok m2 ∧
          (mapGet m2 nm).map TypeImport.localName = some ((propertyName.getD nm) ++ "Φ")) ∧
    (∀ a b : String, a ≠ b → a ++ "Φ" ≠ b ++ "Φ") := by
  constructor
  · intro propertyName nm mp importMap
    refine ⟨_, rfl, ?_⟩
    simp only [List.foldl_cons, List.foldl_nil]
    rw [mapGet_mapSet_self]
    rfl
  · intro a b hab hEq
    exact hab (string_append_right_cancel a b "Φ" hEq)

/-- C3 witness: the amended construction evaluated on
`import { A as B } from "mod1"`, plus distinctness of the localNames of
two distinct original names. -/
theorem C3_localName_construction_witness :
    (∃ m2,
        scanImportDeclaration
            { importClause := some
                { name := none,
                  namedBindings := some
                    (NamedBindings.namedImports
                      [{ propertyName := some "A", name := "B" }]) },
              moduleSpecifier := "mod1" } [] = Except.ok m2 ∧
        (mapGet m2 "B").map TypeImport.localName = some (((some "A").getD "B") ++ "Φ")) ∧
    ("A" : String) ++ "Φ" ≠ ("B" : String) ++ "Φ" :=
  ⟨C3_localName_construction.1 (some "A") "B" "mod1" [],
   C3_localName_construction.2 "A" "B" (by decide)⟩

/-- C4: counterexample to idempotence -- running the pass once on a module
that imports `x` from `y` and references it synthesizes one
`import { x as xΦ } from "y"`; running the pass again on that output
synthesizes a second, identical alias import (the fresh scan re-marks the
original record referenced and synthesis does not detect the alias import
already present). -/
theorem C4_second_run_duplicates_import :
    (transformSourceFile optionsES false sampleModule).map countSynthX = Except.ok 1 ∧
    ((transformSourceFile optionsES false sampleModule).bind
        (fun sf1 => transformSourceFile optionsES false sf1)).map countSynthX =
      Except.ok 2 :=
  ⟨rfl, rfl⟩

/-- C4 (amended): within a single run, import synthesis adds exactly one
copy of the alias import for a referenced, non-skipped record; re-running
the whole pass on its own output adds another copy, so the non-duplication
guarantee holds per run, not across runs. -/
theorem C4_single_run_one_alias (opts : CompilerOptions) (k : String) (impo : TypeImport)
    (s : List Stmt) (h1 : impo.referenced = true)
    (h2 : ((opts.module == ModuleKind.commonJS) && !impo.isNamespace) = false) :
    (generateImports opts [(k, impo)] s).countP
        (fun st => stmtIsImportDecl st (synthesizedImportFor impo)) =
      s.countP (fun st => stmtIsImportDecl st (synthesizedImportFor impo)) + 1 := by
  have hstep : generateImports opts [(k, impo)] s =
      generateImportsStep (opts.module == ModuleKind.commonJS) s impo := rfl
  rw [hstep]
  unfold generateImportsStep
  rw [h1, h2]
  have hp : stmtIsImportDecl (Stmt.importStmt (synthesizedImportFor impo))
      (synthesizedImportFor impo) = true := by
    simp [stmtIsImportDecl]
  cases hidx : stmtIndexOf s impo.importDeclaration with
  | some j =>
      simp only [Bool.not_true, Bool.false_eq_true, if_false]
      rw [spliceInsert_countP]
      simp [hp]
  | none =>
      simp only [Bool.not_true, Bool.false_eq_true, if_false]
      rw [spliceInsert_countP]
      simp [hp]

/-- C4 witness: the single-run guarantee evaluated on the record for `A`
of `import { A, B } from "m"` against an empty statement list. -/
theorem C4_single_run_one_alias_witness :
    (generateImports optionsES [("A", recordA)] []).countP
        (fun st => stmtIsImportDecl st (synthesizedImportFor recordA)) =
      ([] : List Stmt).countP (fun st => stmtIsImportDecl st (synthesizedImportFor recordA)) + 1 :=
  C4_single_run_one_alias optionsES "A" recordA [] rfl rfl

/-- C5: counterexample -- under CommonJS, a dotted type reference `A.b`
whose root `A` is a tracked named import is not reconstructed over a
`require` call: reference reconstruction throws the unsupported-shape
error, because `propertyPrepend` has no case for a property access whose
inner expression is a bare identifier. -/
theorem C5_dotted_path_throws :
    serializeTypeRef ModuleKind.commonJS
        (some (TypeNode.typeReference (EntityName.qualified (EntityName.ident "A") "b"))) true
        [("A", recordA)] =
      Except.error
        (TransformError.thrown "Unsupported expression type PropertyAccessExpression") := by
  rfl

/-- C5 (amended): under CommonJS, a bare-identifier reference whose root
is a tracked named (non-namespace) import serializes to the member access
over a dynamic `require` of the record's module path and marks the record
referenced; a dotted member path rooted at such an import instead raises
the fatal unsupported-expression error during reference reconstruction. -/
theorem C5_commonjs_named_import (name : String) (impo : TypeImport) (importMap : ImportMap)
    (extended : Bool) (h1 : mapGet importMap name = some impo) (h2 : impo.isNamespace = false) :
    serializeTypeRef ModuleKind.commonJS (some (TypeNode.typeReference (EntityName.ident name)))
        extended importMap =
      Except.ok
        (Expr.propAccess
          (Expr.callExpr (Expr.ident "require") [Expr.stringLiteral impo.modulePath]) name,
         setReferenced importMap name) ∧
    (∀ (q : EntityName) (r : String) (impo2 : TypeImport),
        mapGet importMap (getRootNameOfEntityName q) = some impo2 → impo2.isNamespace = false →
          serializeTypeRef ModuleKind.commonJS
              (some (TypeNode.typeReference (EntityName.qualified q r))) extended importMap =
            Except.error
              (TransformError.thrown "Unsupported expression type PropertyAccessExpression")) := by
  constructor
  · show serializeTypeRefNode ModuleKind.commonJS (TypeNode.typeReference (EntityName.ident name))
        extended importMap = _
    simp only [serializeTypeRefNode, getRootNameOfEntityName, beq_self_eq_true, if_true]
    rw [h1]
    simp only [h2, Bool.not_false, if_true, propertyPrepend]
  · intro q r impo2 hg hn
    show serializeTypeRefNode ModuleKind.commonJS
        (TypeNode.typeReference (EntityName.qualified q r)) extended importMap = _
    simp only [serializeTypeRefNode, getRootNameOfEntityName, beq_self_eq_true, if_true]
    rw [hg]
    simp only [hn, Bool.not_false, if_true]
    rw [propertyPrepend_clone_qualified]

/-- C5 witness: the bare-identifier conjunct evaluated on the record for
`A` bound by `import { A, B } from "m"`. -/
theorem C5_commonjs_named_import_witness :
    serializeTypeRef ModuleKind.commonJS (some (TypeNode.typeReference (EntityName.ident "A")))
        true [("A", recordA)] =
      Except.ok
        (Expr.propAccess
          (Expr.callExpr (Expr.ident "require") [Expr.stringLiteral recordA.modulePath]) "A",
         setReferenced [("A", recordA)] "A") :=
  (C5_commonjs_named_import "A" recordA [("A", recordA)] true rfl rfl).1

/-- C6: counterexample to the immediate-adjacency conjunct -- when two
referenced records share one original import statement
(`import { A, B } from "m"`), the second synthesized import lands between
the first synthesized import and the original statement, so the first
alias import is not immediately before its record's original import. -/
theorem C6_shared_import_not_immediate :
    generateImports optionsES [("A", recordA), ("B", recordB)] [Stmt.importStmt importAB] =
      [Stmt.importStmt (synthesizedImportFor recordA),
       Stmt.importStmt (synthesizedImportFor recordB),
       Stmt.importStmt importAB] ∧
    synthesizedImportFor recordA ≠ importAB ∧
    synthesizedImportFor recordB ≠ importAB :=
  ⟨rfl, by decide, by decide⟩

/-- C6 (amended): import synthesis inserts exactly one new import per
referenced record (named records skipped under CommonJS); for a record
processed against the statement list, the synthesized import is spliced
in at the position of the record's original import statement -- so a
record whose original statement is found at index `i` ends up at index
`i` with the original right after it and the prefix untouched, a record
whose original statement is absent is prepended at the top, and a
non-emitting record leaves the statements unchanged.  (When several
records share one original statement, later insertions land between
earlier aliases and the original.) -/
theorem C6_generateImports_characterization :
    (∀ (opts : CompilerOptions) (importMap : ImportMap) (statements : List Stmt),
        (generateImports opts importMap statements).length =
          statements.length + ((mapValues importMap).filter (shouldEmitSpec opts)).length) ∧
    (∀ (opts : CompilerOptions) (k : String) (impo : TypeImport) (s : List Stmt) (i : Nat),
        shouldEmitSpec opts impo = true →
        stmtIndexOf s impo.importDeclaration = some i →
          s.get? i = some (Stmt.importStmt impo.importDeclaration) ∧
          (generateImports opts [(k, impo)] s).get? i =
            some (Stmt.importStmt (synthesizedImportFor impo)) ∧
          (generateImports opts [(k, impo)] s).get? (i + 1) = s.get? i ∧
          (∀ j, j < i → (generateImports opts [(k, impo)] s).get? j = s.get? j)) ∧
    (∀ (opts : CompilerOptions) (k : String) (impo : TypeImport) (s : List Stmt),
        shouldEmitSpec opts impo = true →
        stmtIndexOf s impo.importDeclaration = none →
          generateImports opts [(k, impo)] s =
            Stmt.importStmt (synthesizedImportFor impo) :: s) ∧
    (∀ (opts : CompilerOptions) (k : String) (impo : TypeImport) (s : List Stmt),
        shouldEmitSpec opts impo = false → generateImports opts [(k, impo)] s = s) := by
  refine ⟨?_, ?_, ?_, ?_⟩
  · intro opts importMap statements
    exact generateImports_foldl_length (opts.module == ModuleKind.commonJS)
      (mapValues importMap) statements
  · intro opts k impo s i hs hidx
    obtain ⟨h1, h2⟩ := shouldEmitSpec_true_elim opts impo hs
    have hlt := stmtIndexOf_lt_length s impo.importDeclaration i hidx
    have hout : generateImports opts [(k, impo)] s =
        spliceInsert s i (Stmt.importStmt (synthesizedImportFor impo)) := by
      have hstep : generateImports opts [(k, impo)] s =
          generateImportsStep (opts.module == ModuleKind.commonJS) s impo := rfl
      rw [hstep]
      unfold generateImportsStep
      rw [h1, h2, hidx]
      simp
    refine ⟨stmtIndexOf_get s impo.importDeclaration i hidx, ?_, ?_, ?_⟩
    · rw [hout]
      exact spliceInsert_get_self s i _ (Nat.le_of_lt hlt)
    · rw [hout]
      exact spliceInsert_get_succ s i _
    · intro j hj
      rw [hout]
      exact spliceInsert_get_lt s i j _ hj (Nat.le_of_lt hlt)
  · intro opts k impo s hs hidx
    obtain ⟨h1, h2⟩ := shouldEmitSpec_true_elim opts impo hs
    have hstep : generateImports opts [(k, impo)] s =
        generateImportsStep (opts.module == ModuleKind.commonJS) s impo := rfl
    rw [hstep]
    unfold generateImportsStep
    rw [h1, h2, hidx]
    simp [spliceInsert]
  · intro opts k impo s hs
    have hstep : generateImports opts [(k, impo)] s =
        generateImportsStep (opts.module == ModuleKind.commonJS) s impo := rfl
    rw [hstep]
    unfold generateImportsStep
    cases href : impo.referenced with
    | false => simp
    | true =>
        have hskip : ((opts.module == ModuleKind.commonJS) && !impo.isNamespace) = true := by
          simp only [shouldEmitSpec, href, Bool.true_and] at hs
          simpa using hs
        rw [hskip]
        simp

/-- C6 witness: the fallback conjunct evaluated on the record for `B`
against an empty statement list: the synthesized import is placed at the
top. -/
theorem C6_generateImports_characterization_witness :
    generateImports optionsES [("B", recordB)] [] =
      [Stmt.importStmt (synthesizedImportFor recordB)] :=
  C6_generateImports_characterization.2.2.1 optionsES "B" recordB [] rfl rfl

/-- C8: whenever parameter-metadata extraction succeeds, the first emitted
decorator is the `rt:p` descriptor list, with exactly one descriptor per
declared parameter in declaration order; each descriptor carries the
parameter's literal source name and a forward-ref wrapping of exactly the
extended-mode serialization of that parameter's declared type (at the
threaded import-map state, per `paramsSerializeSpec`), and a flag field
that is omitted exactly when the parameter has no readonly/visibility
modifier and no optional marker; the flag string contains the optional
marker iff the question token is present and each modifier code iff the
corresponding modifier is declared. -/
theorem C8_param_descriptors (moduleKind : ModuleKind) (emitStandardMetadata : Bool)
    (method : FunctionLikeDeclaration) (importMap : ImportMap) (decs : List Decorator)
    (m2 : ImportMap)
    (h : extractParamsMetadata moduleKind emitStandardMetadata method importMap =
      Except.ok (decs, m2)) :
    (∃ ps stds ts,
        decs.head? = some (metadataDecorator "rt:p" (MetaValue.paramList ps)) ∧
        paramsSerializeSpec moduleKind method.parameters importMap stds ts m2 ∧
        ts.length = method.parameters.length ∧
        ps = List.zipWith paramMetaSpec method.parameters ts) ∧
    (∀ (param : ParameterDeclaration) (t : Expr),
        (paramMetaSpec param t).n = param.name ∧
        (paramMetaSpec param t).t = Expr.forwardRef t ∧
        ((paramMetaSpec param t).f = none ↔
          hasParamFlagModifiers param.modifiers = false ∧ param.questionToken = false)) ∧
    (∀ param : ParameterDeclaration,
        FlagCode.F_OPTIONAL ∈ paramFlags param ↔ param.questionToken = true) ∧
    (∀ (param : ParameterDeclaration) (ms : List Modifier), param.modifiers = some ms →
        ((FlagCode.F_READONLY ∈ paramFlags param ↔ Modifier.readonlyKeyword ∈ ms) ∧
         (FlagCode.F_PRIVATE ∈ paramFlags param ↔ Modifier.privateKeyword ∈ ms) ∧
         (FlagCode.F_PUBLIC ∈ paramFlags param ↔ Modifier.publicKeyword ∈ ms) ∧
         (FlagCode.F_PROTECTED ∈ paramFlags param ↔ Modifier.protectedKeyword ∈ ms))) := by
  refine ⟨?_, ?_, ?_, ?_⟩
  · cases hl : extractParamsLoop moduleKind method.parameters importMap with
    | error e => simp [extractParamsMetadata, hl] at h
    | ok res =>
        obtain ⟨stds, metas, m3⟩ := res
        simp only [extractParamsMetadata, hl, Except.ok.injEq, Prod.mk.injEq] at h
        obtain ⟨hdecs, hm⟩ := h
        obtain ⟨ts, hts, hmetas, hspec⟩ :=
          extractParamsLoop_shape moduleKind method.parameters importMap stds metas m3 hl
        refine ⟨metas, stds, ts, ?_, ?_, hts, hmetas⟩
        · rw [← hdecs]
          cases emitStandardMetadata <;> simp [metadataDecorator]
        · rw [← hm]
          exact hspec
  · intro param t
    refine ⟨rfl, rfl, ?_⟩
    have hiff : (paramMetaSpec param t).f = none ↔ paramFlags param = [] := by
      simp only [paramMetaSpec]
      cases hpf : paramFlags param with
      | nil => simp
      | cons a l => simp
    rw [hiff, paramFlags_eq_nil]
  · intro param
    exact mem_paramFlags_optional param
  · intro param ms hms
    simp only [paramFlags, hms]
    cases hq : param.questionToken with
    | false =>
        simp [mem_modifierParamFlags_readonly, mem_modifierParamFlags_private,
          mem_modifierParamFlags_public, mem_modifierParamFlags_protected]
    | true =>
        simp [List.mem_append, mem_modifierParamFlags_readonly, mem_modifierParamFlags_private,
          mem_modifierParamFlags_public, mem_modifierParamFlags_protected]

/-- C8 witness: the descriptor-shape conjunct evaluated on a method with
the single parameter `public count: number`. -/
theorem C8_param_descriptors_witness :
    ∃ ps stds ts,
      ([metadataDecorator "rt:p"
          (MetaValue.paramList [paramMetaSpec paramCount (Expr.ident "Number")])] :
            List Decorator).head? =
        some (metadataDecorator "rt:p" (MetaValue.paramList ps)) ∧
      paramsSerializeSpec ModuleKind.esModule methodCount.parameters [] stds ts [] ∧
      ts.length = methodCount.parameters.length ∧
      ps = List.zipWith paramMetaSpec methodCount.parameters ts :=
  (C8_param_descriptors ModuleKind.esModule false methodCount []
    [metadataDecorator "rt:p" (MetaValue.paramList [paramMetaSpec paramCount (Expr.ident "Number")])]
    [] (by rfl)).1

/-- C9: the checked-type table is total with range inside the six coarse
identifiers, every checked type in no recognized category degrades to the
generic `Object` reference, and for a method with no explicit return
annotation the method extractor succeeds whenever its parameter metadata
does -- regardless of the inferred checked return type -- emitting the
forward-ref-wrapped table result under `rt:t` and never invoking the
fallible extended serializer for the return type. -/
theorem C9_inferred_return_type_total :
    (∀ t : CheckedType,
        typeToTypeRef t = Expr.ident "String" ∨ typeToTypeRef t = Expr.ident "Number" ∨
        typeToTypeRef t = Expr.ident "Boolean" ∨ typeToTypeRef t = Expr.voidZero ∨
        typeToTypeRef t = Expr.ident "BigInt" ∨ typeToTypeRef t = Expr.ident "Object") ∧
    (∀ t : CheckedType, t.isStringFlag = false → t.isNumberFlag = false →
        t.isBooleanFlag = false → t.isVoidFlag = false → t.isBigIntFlag = false →
        typeToTypeRef t = Expr.ident "Object") ∧
    (∀ (moduleKind : ModuleKind) (emitStandardMetadata : Bool) (method : MethodDeclaration)
        (importMap : ImportMap) (paramDecs : List Decorator) (m1 : ImportMap),
        method.type = none →
        extractParamsMetadata moduleKind emitStandardMetadata method.toFunctionLikeDeclaration
            importMap = Except.ok (paramDecs, m1) →
        ∃ decs,
          extractMethodMetadata moduleKind emitStandardMetadata method importMap =
            Except.ok (decs, m1) ∧
          metadataDecorator "rt:t"
              (MetaValue.literalExpr (Expr.forwardRef (typeToTypeRef method.inferredReturnType)))
            ∈ decs) := by
  refine ⟨?_, ?_, ?_⟩
  · intro t
    unfold typeToTypeRef
    split_ifs <;> simp
  · intro t h1 h2 h3 h4 h5
    simp [typeToTypeRef, h1, h2, h3, h4, h5]
  · intro moduleKind emitStandardMetadata method importMap paramDecs m1 htype hp
    simp only [extractMethodMetadata, hp, htype]
    refine ⟨_, rfl, ?_⟩
    cases emitStandardMetadata <;> simp [List.mem_append]

/-- C9 witness: the no-annotation conjunct evaluated on a method with no
parameters and an unrecognized inferred checked return type. -/
theorem C9_inferred_return_type_total_witness :
    ∃ decs,
      extractMethodMetadata ModuleKind.esModule false methodNoAnnotation [] =
        Except.ok (decs, []) ∧
      metadataDecorator "rt:t"
          (MetaValue.literalExpr
            (Expr.forwardRef (typeToTypeRef methodNoAnnotation.inferredReturnType)))
        ∈ decs :=
  C9_inferred_return_type_total.2.2 ModuleKind.esModule false methodNoAnnotation []
    [metadataDecorator "rt:p" (MetaValue.paramList [])] [] rfl (by rfl)
